import Mathlib

/-!
Verification development for the Response Normalization & Safe Rendering
Pipeline of a conversational client (single-source React/TypeScript app).

The pipeline's functions are shallowly embedded here:
  * `parseJsonResponse`  — the Shape Reconciler (src/App.tsx `parseJsonResponse`)
  * `validateBotResponse` — the Response Validator (src/App.tsx `validateBotResponse`)
  * `preprocessTextResponse` — the Text Repair Engine
  * `renderTables`, `renderIcons`, `getIconSVG` — the Placeholder Expander
  * `preprocessResponse`, `safeRenderMarkdown` — the Safe Renderer

JavaScript values decoded from JSON are modelled by the inductive `Js`
(with an explicit `undefined` for the result of a failed property access);
a thrown TypeError is modelled by `Except.error`.
-/

/-- A decoded JavaScript value: the JSON values plus `undefined`
(the result of accessing an absent property). -/
inductive Js where
  | undefined : Js
  | null : Js
  | bool : Bool → Js
  | num : Int → Js
  | str : String → Js
  | arr : List Js → Js
  | obj : List (String × Js) → Js
deriving Repr

mutual
/-- Structural size of a decoded value (used as ample recursion fuel:
every recursion of the reconciler descends into a strictly smaller part). -/
def jsSize : Js → Nat
  | .arr xs => 1 + jsSizeL xs
  | .obj l => 1 + jsSizeO l
  | _ => 1
def jsSizeL : List Js → Nat
  | [] => 0
  | x :: xs => 1 + jsSize x + jsSizeL xs
def jsSizeO : List (String × Js) → Nat
  | [] => 0
  | (_, v) :: l => 1 + jsSize v + jsSizeO l
end

/-- First-match field lookup in an object's field list; absent keys give
`undefined` (JSON.parse never produces duplicate surviving keys). -/
def lookupField : List (String × Js) → String → Js
  | [], _ => .undefined
  | (k', v) :: rest, k => if k' = k then v else lookupField rest k

/-- JavaScript property access `j[k]`: only objects carry our named fields;
`null.k`/`undefined.k` would throw, which callers must guard themselves. -/
def getField : Js → String → Js
  | .obj l, k => lookupField l k
  | _, _ => .undefined

/-- JavaScript truthiness of a decoded value. -/
def truthy : Js → Bool
  | .undefined => false
  | .null => false
  | .bool b => b
  | .num n => n != 0
  | .str s => s != ""
  | .arr _ => true
  | .obj _ => true

/-- The guard `v && typeof v === 'object'` used by the reconciler. -/
def truthyObject : Js → Bool
  | .arr _ => true
  | .obj _ => true
  | _ => false

/-- JavaScript `a || b`: the first operand when truthy, else the second. -/
def jsOr (a b : Js) : Js :=
  if truthy a then a else b

/-- The raw candidate record the Shape Reconciler hands to the validator
(`rawResponse` in the source); each field is an arbitrary decoded value. -/
structure RawCandidate where
  answer : Js := .undefined
  related_content : Js := .undefined
  recommendations : Js := .undefined
  file_links : Js := .undefined
  tables : Js := .undefined
deriving Repr

/-- The canonical `BotResponse`: `answer` is always a string, the optional
list fields hold the elements that survived filtering. -/
structure BotResponse where
  answer : String
  related_content : Option (List Js)
  recommendations : Option (List Js)
  file_links : Option (List Js)
  tables : Option (List Js)
deriving Repr

/-- Per-entry filter used for `related_content` and `file_links`:
`item && typeof item.title === 'string' && typeof item.url === 'string'`. -/
def validLinkEntry (item : Js) : Bool :=
  truthy item &&
    (match getField item "title" with | .str _ => true | _ => false) &&
    (match getField item "url" with | .str _ => true | _ => false)

/-- Per-entry filter for `recommendations`: `typeof item === 'string'`. -/
def validRecEntry (item : Js) : Bool :=
  match item with | .str _ => true | _ => false

/-- Per-entry filter for `tables`: a truthy value with a string `title`
and array-typed `headers` and `rows` (element types are not checked). -/
def validTableEntry (table : Js) : Bool :=
  truthy table &&
    (match getField table "title" with | .str _ => true | _ => false) &&
    (match getField table "headers" with | .arr _ => true | _ => false) &&
    (match getField table "rows" with | .arr _ => true | _ => false)

/-- The Response Validator (`validateBotResponse` in the source): coerces
`answer` to a string and keeps each optional field only when it is an
array, filtering out entries that fail the per-entry checks. -/
def validateBotResponse (response : RawCandidate) : BotResponse :=
  { answer := match response.answer with | .str s => s | _ => ""
    related_content := match response.related_content with
      | .arr xs => some (xs.filter validLinkEntry)
      | _ => none
    recommendations := match response.recommendations with
      | .arr xs => some (xs.filter validRecEntry)
      | _ => none
    file_links := match response.file_links with
      | .arr xs => some (xs.filter validLinkEntry)
      | _ => none
    tables := match response.tables with
      | .arr xs => some (xs.filter validTableEntry)
      | _ => none }

/-- Two hexadecimal digits of a byte (for JSON string escapes `\u00XX`). -/
def hexDigit (n : Nat) : Char :=
  if n < 10 then Char.ofNat (48 + n) else Char.ofNat (87 + n)

/-- JSON.stringify's escaping of one string character. -/
def jsonEscapeChar (c : Char) : List Char :=
  if c = Char.ofNat 34 then ['\\', Char.ofNat 34]
  else if c = '\\' then ['\\', '\\']
  else if c = '\n' then ['\\', 'n']
  else if c = '\r' then ['\\', 'r']
  else if c = '\t' then ['\\', 't']
  else if c = Char.ofNat 8 then ['\\', 'b']
  else if c = Char.ofNat 12 then ['\\', 'f']
  else if c.toNat < 32 then
    ['\\', 'u', '0', '0', hexDigit (c.toNat / 16), hexDigit (c.toNat % 16)]
  else [c]

/-- A JSON string literal with escapes, as produced by JSON.stringify. -/
def quoteJson (s : String) : String :=
  ⟨Char.ofNat 34 :: (s.data.flatMap jsonEscapeChar) ++ [Char.ofNat 34]⟩

/-- `n` spaces (indentation for JSON.stringify with indent 2). -/
def spacesStr (n : Nat) : String :=
  ⟨List.replicate n ' '⟩

/-- Is this value `undefined`? (JSON.stringify drops such object fields.) -/
def isUndefined : Js → Bool
  | .undefined => true
  | _ => false

/-- Fuelled body of `JSON.stringify(v, null, 2)`; the fuel only bounds the
recursion depth and is always ample at the call site `stringify`. -/
def stringifyF : Nat → Nat → Js → String
  | 0, _, _ => ""
  | _ + 1, _, .undefined => ""
  | _ + 1, _, .null => "null"
  | _ + 1, _, .bool b => if b then "true" else "false"
  | _ + 1, _, .num n => toString n
  | _ + 1, _, .str s => quoteJson s
  | n + 1, ind, .arr xs =>
    match xs with
    | [] => "[]"
    | _ =>
      "[\n" ++
        String.intercalate ",\n"
          (xs.map (fun x => spacesStr (ind + 2) ++ stringifyF n (ind + 2) x)) ++
        "\n" ++ spacesStr ind ++ "]"
  | n + 1, ind, .obj l =>
    match l.filter (fun p => !isUndefined p.2) with
    | [] => "\x7b\x7d"
    | l' =>
      "\x7b\n" ++
        String.intercalate ",\n"
          (l'.map (fun p =>
            spacesStr (ind + 2) ++ quoteJson p.1 ++ ": " ++
              stringifyF n (ind + 2) p.2)) ++
        "\n" ++ spacesStr ind ++ "\x7d"

/-- `JSON.stringify(v, null, 2)` (the reconciler's fallback serialization). -/
def stringify (j : Js) : String :=
  stringifyF (jsSize j + 1) 0 j

/-- Candidate extraction for shape 1, `{ response: { ... } }`:
synonym fields are merged with `||` exactly as in the source. -/
def mkRawFromResponse (resp : Js) : RawCandidate :=
  { answer := jsOr (getField resp "answer") (jsOr (getField resp "text") (.str ""))
    related_content :=
      jsOr (getField resp "related_content") (getField resp "relatedContent")
    recommendations :=
      jsOr (getField resp "recommendations") (getField resp "suggestions")
    file_links :=
      jsOr (getField resp "file_links")
        (jsOr (getField resp "fileLinks") (getField resp "files"))
    tables := getField resp "tables" }

/-- Candidate extraction for shape 2, the direct `{ answer: ... }` format. -/
def mkRawDirect (j : Js) : RawCandidate :=
  { answer := jsOr (getField j "answer") (jsOr (getField j "text") (getField j "message"))
    related_content :=
      jsOr (getField j "related_content") (getField j "relatedContent")
    recommendations :=
      jsOr (getField j "recommendations") (getField j "suggestions")
    file_links :=
      jsOr (getField j "file_links")
        (jsOr (getField j "fileLinks") (getField j "files"))
    tables := getField j "tables" }

/-- Fuelled body of the Shape Reconciler (`parseJsonResponse` in the source).
Property access on `null`/`undefined` throws a TypeError, modelled as
`Except.error ()`.  The fuel only bounds the recursion depth — the source
has no depth cap; at the call site `parseJsonResponse` it is always ample,
because each recursive step descends into a structurally smaller payload. -/
def parseF : Nat → Js → Except Unit BotResponse
  | 0, _ => .error ()
  | _ + 1, .null => .error ()
  | _ + 1, .undefined => .error ()
  | n + 1, j =>
    if truthyObject (getField j "response") then
      .ok (validateBotResponse (mkRawFromResponse (getField j "response")))
    else if truthy (getField j "answer") || truthy (getField j "text")
        || truthy (getField j "message") then
      .ok (validateBotResponse (mkRawDirect j))
    else if truthyObject (getField j "data") then
      parseF n (getField j "data")
    else
      match j with
      | .arr (x :: _) => parseF n x
      | .str s => .ok (validateBotResponse { answer := .str s })
      | _ => .ok (validateBotResponse { answer := .str (stringify j) })

/-- The Shape Reconciler followed by the Response Validator (the validator is
invoked by the reconciler on every exit path, as in the source). -/
def parseJsonResponse (j : Js) : Except Unit BotResponse :=
  parseF (jsSize j + 1) j

/-- The payload shapes on which the reconciler's recursion never reaches
`null` or `undefined`: entering the reconciler with those throws a TypeError
at the first property access, and the only unguarded recursion is into a
non-empty array's first element (the nested-data recursion is guarded by
`jsonData.data && typeof jsonData.data === 'object'`, which excludes null). -/
inductive ReconcilerSafe : Js → Prop where
  | bool (b : Bool) : ReconcilerSafe (.bool b)
  | num (n : Int) : ReconcilerSafe (.num n)
  | str (s : String) : ReconcilerSafe (.str s)
  | arrNil : ReconcilerSafe (.arr [])
  | arrCons (x : Js) (xs : List Js) :
      ReconcilerSafe x → ReconcilerSafe (.arr (x :: xs))
  | objDirect (l : List (String × Js)) :
      (truthyObject (getField (.obj l) "response") ||
        truthy (getField (.obj l) "answer") ||
        truthy (getField (.obj l) "text") ||
        truthy (getField (.obj l) "message")) = true →
      ReconcilerSafe (.obj l)
  | objData (l : List (String × Js)) :
      truthyObject (getField (.obj l) "data") = true →
      ReconcilerSafe (getField (.obj l) "data") →
      ReconcilerSafe (.obj l)
  | objPlain (l : List (String × Js)) :
      truthyObject (getField (.obj l) "data") = false →
      ReconcilerSafe (.obj l)

/-- `nestData k b`: the value `b` wrapped in `k` layers of `{ "data": _ }`. -/
def nestData : Nat → Js → Js
  | 0, b => b
  | k + 1, b => .obj [("data", nestData k b)]

/-- Modelled from the spec: the reconciler that the claim describes — the
same shape dispatch as `parseJsonResponse`, but with the recursion depth
capped, falling back to the stringification rule once the cap is exhausted.
The source `parseJsonResponse` contains no such cap; this definition exists
only to compare the claimed behaviour against the code's. -/
def parseCappedF : Nat → Js → Except Unit BotResponse
  | 0, j => .ok (validateBotResponse { answer := .str (stringify j) })
  | _ + 1, .null => .error ()
  | _ + 1, .undefined => .error ()
  | n + 1, j =>
    if truthyObject (getField j "response") then
      .ok (validateBotResponse (mkRawFromResponse (getField j "response")))
    else if truthy (getField j "answer") || truthy (getField j "text")
        || truthy (getField j "message") then
      .ok (validateBotResponse (mkRawDirect j))
    else if truthyObject (getField j "data") then
      parseCappedF n (getField j "data")
    else
      match j with
      | .arr (x :: _) => parseCappedF n x
      | .str s => .ok (validateBotResponse { answer := .str s })
      | _ => .ok (validateBotResponse { answer := .str (stringify j) })

/-- Modelled from the spec: the claim's depth-10-capped reconciler. -/
def specCappedReconcile (j : Js) : Except Unit BotResponse :=
  parseCappedF 10 j

/-- A payload with twelve nested `"data"` wrappers around a direct answer —
deeper than the depth cap the claim asserts. -/
def deepDataPayload : Js :=
  nestData 12 (.obj [("answer", Js.str "hi")])

/-- Is the value a string? (`typeof v === 'string'`.) -/
def isStringJs : Js → Bool
  | .str _ => true
  | _ => false

/-- Modelled from the spec (§3 invariant): the claim's validity predicate for
`RelatedItem`/`FileLink` entries — a NON-EMPTY `title` and a NON-EMPTY `url`,
both strings.  The source validator checks only the string types. -/
def specLinkValid (item : Js) : Bool :=
  match getField item "title", getField item "url" with
  | .str t, .str u => t != "" && u != ""
  | _, _ => false

/-- Modelled from the spec (§3 invariant): a `headers` value that is a
sequence of strings. -/
def specHeadersValid : Js → Bool
  | .arr hs => hs.all isStringJs
  | _ => false

/-- Modelled from the spec (§3 invariant): a `rows` value that is a sequence
of string-sequences. -/
def specRowsValid : Js → Bool
  | .arr rs => rs.all (fun r =>
      match r with
      | .arr cells => cells.all isStringJs
      | _ => false)
  | _ => false

/-- Modelled from the spec (§3 invariant): the claim's validity predicate for
`Table` entries — string title, headers a sequence of strings, rows a
sequence of string-sequences.  The source validator checks only that
`headers` and `rows` are arrays. -/
def specTableValid (t : Js) : Bool :=
  isStringJs (getField t "title") &&
    specHeadersValid (getField t "headers") &&
    specRowsValid (getField t "rows")

/-- A related-content entry with string but EMPTY title and url. -/
def emptyTitleLink : Js :=
  .obj [("title", .str ""), ("url", .str "")]

/-- A table entry whose `headers` array holds a number, not a string. -/
def numericHeaderTable : Js :=
  .obj [("title", .str "T"), ("headers", .arr [.num 1]), ("rows", .arr [])]

/-- A well-formed related-content entry. -/
def goodLinkA : Js := .obj [("title", .str "A"), ("url", .str "https://a")]

/-- Another well-formed related-content entry. -/
def goodLinkB : Js := .obj [("title", .str "B"), ("url", .str "https://b")]

/-- A candidate whose arrays hold entries valid for the code's checks but
invalid for the spec's stricter invariant. -/
def lenientCandidate : RawCandidate :=
  { related_content := .arr [emptyTitleLink], tables := .arr [numericHeaderTable] }

/-- JavaScript's `\s` character class (the members representable here). -/
def isWsChar (c : Char) : Bool :=
  c = ' ' || c = '\t' || c = '\n' || c = '\r' ||
    c = Char.ofNat 11 || c = Char.ofNat 12 || c = Char.ofNat 160

/-- JavaScript's `\w` character class: ASCII letters, digits, underscore. -/
def isWordChar (c : Char) : Bool :=
  ('a' ≤ c && c ≤ 'z') || ('A' ≤ c && c ≤ 'Z') || ('0' ≤ c && c ≤ '9') || c = '_'

/-- JavaScript's `\d` character class. -/
def isDigitChar (c : Char) : Bool :=
  '0' ≤ c && c ≤ '9'

/-- Length of the maximal prefix run satisfying `p` (a greedy class star). -/
def runLen (p : Char → Bool) : List Char → Nat
  | c :: cs => if p c then runLen p cs + 1 else 0
  | [] => 0

/-- Maximal whitespace run (`\s*` when nothing later backtracks into it). -/
def wsRunLen : List Char → Nat :=
  runLen isWsChar

/-- Does the chunk of text just consumed end in a newline?  (Determines
whether the next scan position is a line start for `m`-anchored patterns.) -/
def lastIsNewline (l : List Char) : Bool :=
  match l.getLast? with
  | some c => c = '\n'
  | none => false

/-- One global-replace pass of a JavaScript regex, `String.replace(re, _)`
with the `g` flag: scan left to right; where the matcher fires, emit the
replacement and resume after the match, otherwise copy one character.  The
matcher receives a flag telling whether the position is a line start (for
`m`-anchored patterns) and returns the replacement text plus the number of
characters consumed (always at least 1 for the patterns modelled here).
The fuel starts at the text length and never runs out, since every step
consumes at least one character. -/
def gReplF (m : Bool → List Char → Option (List Char × Nat)) :
    Nat → Bool → List Char → List Char
  | 0, _, l => l
  | _ + 1, _, [] => []
  | n + 1, atLS, c :: cs =>
    match m atLS (c :: cs) with
    | some (repl, used) =>
      repl ++ gReplF m n (lastIsNewline ((c :: cs).take used)) ((c :: cs).drop used)
    | none => c :: gReplF m n (c = '\n') cs

/-- Run a global regex replace over a whole text (position 0 is a line start). -/
def gRepl (m : Bool → List Char → Option (List Char × Nat)) (l : List Char) :
    List Char :=
  gReplF m l.length true l

/-- The lazy group of `\*\*(.*?)\*\*`: the shortest run of non-newline
characters up to a closing `**`. -/
def lazyToDoubleStar : List Char → Option (List Char)
  | '*' :: '*' :: _ => some []
  | '\n' :: _ => none
  | c :: rest => (lazyToDoubleStar rest).map (fun g => c :: g)
  | [] => none

/-- The lazy group of `__(.*?)__`. -/
def lazyToDoubleUnderscore : List Char → Option (List Char)
  | '_' :: '_' :: _ => some []
  | '\n' :: _ => none
  | c :: rest => (lazyToDoubleUnderscore rest).map (fun g => c :: g)
  | [] => none

/-- The lazy group of `\*(.*?)\*`. -/
def lazyToStar : List Char → Option (List Char)
  | '*' :: _ => some []
  | '\n' :: _ => none
  | c :: rest => (lazyToStar rest).map (fun g => c :: g)
  | [] => none

/-- Repair rule 1, `/\*\*(.*?)\*\*/g → '**$1**'` (a textual identity). -/
def matchBoldStar (_ : Bool) : List Char → Option (List Char × Nat)
  | '*' :: '*' :: rest =>
    (lazyToDoubleStar rest).map (fun g =>
      ('*' :: '*' :: g ++ ['*', '*'], g.length + 4))
  | _ => none

/-- Repair rule 2, `/__(.*?)__/g → '**$1**'`. -/
def matchBoldUnderscore (_ : Bool) : List Char → Option (List Char × Nat)
  | '_' :: '_' :: rest =>
    (lazyToDoubleUnderscore rest).map (fun g =>
      ('*' :: '*' :: g ++ ['*', '*'], g.length + 4))
  | _ => none

/-- Repair rule 3, `/\*(.*?)\*/g → '*$1*'` (a textual identity). -/
def matchItalicStar (_ : Bool) : List Char → Option (List Char × Nat)
  | '*' :: rest =>
    (lazyToStar rest).map (fun g => ('*' :: g ++ ['*'], g.length + 2))
  | _ => none

/-- Repair rule 4, `/\\n/g → '\n'`: escaped newline sequences become breaks. -/
def matchEscapedNewline (_ : Bool) : List Char → Option (List Char × Nat)
  | '\\' :: 'n' :: _ => some (['\n'], 2)
  | _ => none

/-- Backtracking for the second `\s*` of `/\n\s*\n\s*\n/`: try the largest
whitespace count `b` first, requiring a newline right after it. -/
def innerNewline (rest : List Char) : Nat → Option Nat
  | 0 => if (rest.head? = some '\n') then some 0 else none
  | b + 1 =>
    if ((rest.drop (b + 1)).head? = some '\n') then some (b + 1)
    else innerNewline rest b

/-- One attempt of the first `\s*` of `/\n\s*\n\s*\n/` at width `a`. -/
def outerNewlineStep (rest : List Char) (a : Nat) : Option Nat :=
  if ((rest.drop a).head? = some '\n') then
    (innerNewline (rest.drop (a + 1)) (wsRunLen (rest.drop (a + 1)))).map
      (fun b => a + 1 + b + 1)
  else none

/-- Backtracking for the first `\s*` of `/\n\s*\n\s*\n/` (greedy: largest
width first). -/
def outerNewline (rest : List Char) : Nat → Option Nat
  | 0 => outerNewlineStep rest 0
  | a + 1 =>
    match outerNewlineStep rest (a + 1) with
    | some r => some r
    | none => outerNewline rest a

/-- Repair rule 5, `/\n\s*\n\s*\n/g → '\n\n'`: collapse runs of blank lines. -/
def matchTripleNewline (_ : Bool) : List Char → Option (List Char × Nat)
  | '\n' :: rest =>
    (outerNewline rest (wsRunLen rest)).map (fun w => (['\n', '\n'], 1 + w))
  | _ => none

/-- Repair rule 6, `/^\s*[•–]\s+/gm → '- '`: alternate bullet glyphs become
the canonical dash bullet. -/
def matchBulletSymbol (atLS : Bool) (l : List Char) : Option (List Char × Nat) :=
  if !atLS then none
  else
    let a := wsRunLen l
    match (l.drop a).head? with
    | some c =>
      if c = '•' || c = '–' then
        let b := wsRunLen (l.drop (a + 1))
        if 1 ≤ b then some (['-', ' '], a + 1 + b) else none
      else none
    | none => none

/-- Repair rule 7, `/([^\n])\n(\s*[-*+]\s)/g → '$1\n\n$2'`: insert a blank
line before a bulleted list item when any non-newline character precedes. -/
def matchBlankBeforeBullet (_ : Bool) : List Char → Option (List Char × Nat)
  | c :: '\n' :: rest =>
    if c = '\n' then none
    else
      let a := wsRunLen rest
      match (rest.drop a).head? with
      | some g =>
        if g = '-' || g = '*' || g = '+' then
          match (rest.drop (a + 1)).head? with
          | some w =>
            if isWsChar w then
              some (c :: '\n' :: '\n' :: rest.take (a + 2), 2 + a + 2)
            else none
          | none => none
        else none
      | none => none
  | _ => none

/-- Repair rule 8, `/([^\n])\n(\s*\d+\.\s)/g → '$1\n\n$2'`: the numbered-list
counterpart of rule 7. -/
def matchBlankBeforeNumber (_ : Bool) : List Char → Option (List Char × Nat)
  | c :: '\n' :: rest =>
    if c = '\n' then none
    else
      let a := wsRunLen rest
      let d := runLen isDigitChar (rest.drop a)
      if 1 ≤ d then
        match (rest.drop (a + d)).head? with
        | some dot =>
          if dot = '.' then
            match (rest.drop (a + d + 1)).head? with
            | some w =>
              if isWsChar w then
                some (c :: '\n' :: '\n' :: rest.take (a + d + 2), 2 + a + d + 2)
              else none
            | none => none
          else none
        | none => none
      else none
  | _ => none

/-- Split a text into its lines (`split(/\n/)`). -/
def splitLines : List Char → List (List Char)
  | [] => [[]]
  | '\n' :: rest => [] :: splitLines rest
  | c :: rest =>
    match splitLines rest with
    | lin :: more => (c :: lin) :: more
    | [] => [[c]]

/-- Join lines back with newlines (`join('\n')`). -/
def joinLines (lines : List (List Char)) : List Char :=
  List.intercalate ['\n'] lines

/-- JavaScript `String.trim()`: strip whitespace from both ends. -/
def trimL (l : List Char) : List Char :=
  ((l.dropWhile isWsChar).reverse.dropWhile isWsChar).reverse

/-- A horizontal-rule glyph (`[-_*]`). -/
def isHRGlyph (c : Char) : Bool :=
  c = '-' || c = '_' || c = '*'

/-- Does `/^[-_*](\s*[-_*]){2,}$/` accept the (trimmed) line?  Equivalent
characterization: non-empty, first and last characters are rule glyphs, every
character is a glyph or whitespace, and at least three glyphs occur. -/
def isHRLine (t : List Char) : Bool :=
  !t.isEmpty &&
    (match t.head? with | some c => isHRGlyph c | none => false) &&
    (match t.getLast? with | some c => isHRGlyph c | none => false) &&
    t.all (fun c => isWsChar c || isHRGlyph c) &&
    3 ≤ t.countP (fun c => isHRGlyph c)

/-- Line match `/^(\s*)[-*+]\s*(.+)$/` → (indent, content).  The greedy
`\s*` hands one whitespace character back to `(.+)` when the content would
otherwise be empty, exactly as the regex engine backtracks. -/
def bulletLineMatch (line : List Char) : Option (List Char × List Char) :=
  let a := wsRunLen line
  match (line.drop a).head? with
  | some g =>
    if g = '-' || g = '*' || g = '+' then
      let after := line.drop (a + 1)
      let w := wsRunLen after
      let r := after.drop w
      if !r.isEmpty then some (line.take a, r)
      else if 1 ≤ w then some (line.take a, (after.drop (w - 1)).take 1)
      else none
    else none
  | none => none

/-- Line match `/^(\s*)(\d+)\.\s*(.+)$/` → (indent, number, content), with
the same backtracking rule for an all-whitespace tail. -/
def numLineMatch (line : List Char) : Option (List Char × List Char × List Char) :=
  let a := wsRunLen line
  let d := runLen isDigitChar (line.drop a)
  if 1 ≤ d then
    match (line.drop (a + d)).head? with
    | some dot =>
      if dot = '.' then
        let after := line.drop (a + d + 1)
        let w := wsRunLen after
        let r := after.drop w
        if !r.isEmpty then some (line.take a, (line.drop a).take d, r)
        else if 1 ≤ w then
          some (line.take a, (line.drop a).take d, (after.drop (w - 1)).take 1)
        else none
      else none
    | none => none
  else none

/-- Repair rule 9 (line-wise normalization): canonical horizontal rules,
bullets `<indent>- <content>`, numbered items `<indent><num>. <content>`. -/
def normalizeLine (line : List Char) : List Char :=
  if isHRLine (trimL line) then ['-', '-', '-']
  else
    match bulletLineMatch line with
    | some (ind, content) => ind ++ '-' :: ' ' :: content
    | none =>
      match numLineMatch line with
      | some (ind, num, content) => ind ++ num ++ '.' :: ' ' :: content
      | none => line

/-- Repair rule 10, `/^(#+)(\S)/gm → '$1 $2'`: ensure a space after heading
markers.  When the run of `#` is followed by whitespace or the line end, the
engine backtracks and `(\S)` captures the last `#` itself (observable on
`##`-and-deeper headings). -/
def matchHeaderSpacing (atLS : Bool) (l : List Char) : Option (List Char × Nat) :=
  if !atLS then none
  else
    let k := runLen (fun c => c = '#') l
    if k = 0 then none
    else
      match (l.drop k).head? with
      | some c =>
        if !isWsChar c then some (l.take k ++ [' ', c], k + 1)
        else if 2 ≤ k then some (l.take (k - 1) ++ [' ', '#'], k)
        else none
      | none =>
        if 2 ≤ k then some (l.take (k - 1) ++ [' ', '#'], k)
        else none

/-- Heading recognizer `/^(#+)\s+(.*)$/` of the duplicate-collapse pass:
returns the heading text after the marker and spacing. -/
def headingContent (line : List Char) : Option (List Char) :=
  let k := runLen (fun c => c = '#') line
  if k = 0 then none
  else
    let w := wsRunLen (line.drop k)
    if w = 0 then none
    else some (line.drop (k + w))

/-- ASCII lower-casing of a line (JavaScript `toLowerCase` on our inputs). -/
def lowerL (l : List Char) : List Char :=
  l.map Char.toLower

/-- Repair rule 11: drop a heading line whose (trimmed, case-folded) text
equals the immediately preceding heading's; the tracked heading text resets
at every non-heading line. -/
def dedupHeadingLines : List (List Char) → List Char → List (List Char)
  | [], _ => []
  | ln :: rest, last =>
    match headingContent ln with
    | some content =>
      let current := trimL content
      if lowerL current = lowerL last then dedupHeadingLines rest last
      else ln :: dedupHeadingLines rest current
    | none => ln :: dedupHeadingLines rest []

/-- The Text Repair Engine (`preprocessTextResponse` in the source): the
eleven repair passes in source order, then a final trim. -/
def preprocessTextResponseL (text : List Char) : List Char :=
  let p1 := gRepl matchBoldStar text
  let p2 := gRepl matchBoldUnderscore p1
  let p3 := gRepl matchItalicStar p2
  let p4 := gRepl matchEscapedNewline p3
  let p5 := gRepl matchTripleNewline p4
  let p6 := gRepl matchBulletSymbol p5
  let p7 := gRepl matchBlankBeforeBullet p6
  let p8 := gRepl matchBlankBeforeNumber p7
  let p9 := joinLines ((splitLines p8).map normalizeLine)
  let p10 := gRepl matchHeaderSpacing p9
  let p11 := joinLines (dedupHeadingLines (splitLines p10) [])
  trimL p11

/-- String-level wrapper for the Text Repair Engine. -/
def preprocessTextResponse (s : String) : String :=
  ⟨preprocessTextResponseL s.data⟩

/-- Case-insensitive character comparison (for `i`-flagged regexes). -/
def ciEqChar (a b : Char) : Bool :=
  a.toLower = b.toLower

/-- Case-insensitive literal-prefix test (pattern, then text). -/
def ciPrefix : List Char → List Char → Bool
  | [], _ => true
  | _ :: _, [] => false
  | p :: ps, t :: ts => ciEqChar p t && ciPrefix ps ts

/-- Literal-prefix test (pattern first), matching on the pattern so that it
reduces even when the text has a symbolic tail. -/
def isPrefixL : List Char → List Char → Bool
  | [], _ => true
  | p :: ps, t =>
    match t with
    | [] => false
    | c :: ts => p = c && isPrefixL ps ts

/-- Substring test over character lists. -/
def containsSub (l pat : List Char) : Bool :=
  match l with
  | [] => pat.isEmpty
  | _ :: rest => isPrefixL pat l || containsSub rest pat

/-- Substring test over strings. -/
def strContains (s pat : String) : Bool :=
  containsSub s.data pat.data

/-- Sanitizer pass 1: the tail search of the tempered script-block regex
`<script\b[^<]*(?:(?!<\/script>)<[^<]*)*<\/script>` — the distance up to and
including the FIRST case-insensitive `</script>`. -/
def scriptEndLen : List Char → Option Nat
  | [] => none
  | c :: rest =>
    if ciPrefix "</script>".data (c :: rest) then some 9
    else (scriptEndLen rest).map (· + 1)

/-- Sanitizer pass 1 matcher: an embedded script block (case-insensitive,
word boundary after `<script`, running to the first closing tag). -/
def matchScriptBlock (_ : Bool) (l : List Char) : Option (List Char × Nat) :=
  if ciPrefix "<script".data l then
    let after := l.drop 7
    let boundary := match after.head? with
      | some c => !isWordChar c
      | none => true
    if boundary then (scriptEndLen after).map (fun m => ([], 7 + m)) else none
  else none

/-- Sanitizer pass 2 matcher: the literal `javascript:` (case-insensitive). -/
def matchJavascriptScheme (_ : Bool) (l : List Char) : Option (List Char × Nat) :=
  if ciPrefix "javascript:".data l then some ([], 11) else none

/-- Sanitizer passes 3/4 matcher: `on\w+=<q>[^<q>]*<q>` for a quote
character `q` — an event-handler attribute with a quoted value. -/
def matchOnHandler (q : Char) (_ : Bool) (l : List Char) : Option (List Char × Nat) :=
  match l with
  | a :: b :: rest =>
    if a.toLower = 'o' && b.toLower = 'n' then
      let w := runLen isWordChar rest
      if 1 ≤ w then
        if (rest.drop w).head? = some '=' && (rest.drop (w + 1)).head? = some q then
          let body := rest.drop (w + 2)
          let p := runLen (fun c => !(c = q)) body
          if (body.drop p).head? = some q then some ([], 2 + w + 2 + p + 1)
          else none
        else none
      else none
    else none
  | _ => none

/-- Sanitizer pass 5 matcher: `<(h[1-6])(\b[^>]*)>#{1,6}\s+` — a heading
open tag whose element content begins with leftover `#` markers; the markers
and the following whitespace are stripped, the tag is kept. -/
def matchHeadingHashFix (_ : Bool) (l : List Char) : Option (List Char × Nat) :=
  match l with
  | '<' :: h :: d :: rest =>
    if h.toLower = 'h' && '1' ≤ d && d ≤ '6' then
      let boundary := match rest.head? with
        | some c => !isWordChar c
        | none => true
      if boundary then
        let p := runLen (fun c => !(c = '>')) rest
        if (rest.drop p).head? = some '>' then
          let after := rest.drop (p + 1)
          let k := runLen (fun c => c = '#') after
          if 1 ≤ k && k ≤ 6 then
            let b := wsRunLen (after.drop k)
            if 1 ≤ b then
              some ('<' :: h :: d :: rest.take p ++ ['>'], 3 + p + 1 + k + b)
            else none
          else none
        else none
      else none
    else none
  | _ => none

/-- Sanitizer pass 6 matcher: `<h[1-6][^>]*>\s*<\/h[1-6]>` — a heading
element left empty (removed outright). -/
def matchEmptyHeading (_ : Bool) (l : List Char) : Option (List Char × Nat) :=
  match l with
  | '<' :: h :: d :: rest =>
    if h.toLower = 'h' && '1' ≤ d && d ≤ '6' then
      let p := runLen (fun c => !(c = '>')) rest
      if (rest.drop p).head? = some '>' then
        let after := rest.drop (p + 1)
        let w := wsRunLen after
        match after.drop w with
        | '<' :: '/' :: h2 :: d2 :: '>' :: _ =>
          if h2.toLower = 'h' && '1' ≤ d2 && d2 ≤ '6' then
            some ([], 3 + p + 1 + w + 5)
          else none
        | _ => none
      else none
    else none
  | _ => none

/-- The Safe Renderer's sanitization chain (the six `replace` calls of
`safeRenderMarkdown`, in source order). -/
def sanitizeHtmlL (html : List Char) : List Char :=
  gRepl matchEmptyHeading
    (gRepl matchHeadingHashFix
      (gRepl (matchOnHandler (Char.ofNat 39))
        (gRepl (matchOnHandler (Char.ofNat 34))
          (gRepl matchJavascriptScheme
            (gRepl matchScriptBlock html)))))

/-- Pre-conversion cleanup pass 1 matcher: `/&nbsp;| |\t/g → ' '`. -/
def matchNbsp (_ : Bool) (l : List Char) : Option (List Char × Nat) :=
  if isPrefixL "&nbsp;".data l then some ([' '], 6)
  else
    match l.head? with
    | some c => if c = Char.ofNat 160 || c = '\t' then some ([' '], 1) else none
    | none => none

/-- Pre-conversion cleanup pass 2 matcher: the global rule `([^\n])---`
with replacement `'$1\n\n---\n\n'`. -/
def matchInlineRule (_ : Bool) (l : List Char) : Option (List Char × Nat) :=
  match l with
  | c :: '-' :: '-' :: '-' :: _ =>
    if c = '\n' then none
    else some (c :: '\n' :: '\n' :: '-' :: '-' :: '-' :: '\n' :: ['\n'], 4)
  | _ => none

/-- Pre-conversion cleanup pass 3 matcher: `/^(\s*)\*\s+/gm → '$1* '`. -/
def matchStarBullet (atLS : Bool) (l : List Char) : Option (List Char × Nat) :=
  if !atLS then none
  else
    let a := wsRunLen l
    if (l.drop a).head? = some '*' then
      let b := wsRunLen (l.drop (a + 1))
      if 1 ≤ b then some (l.take a ++ ['*', ' '], a + 1 + b) else none
    else none

/-- Pre-conversion cleanup pass 4 matcher: `/^(#+)(?! )/gm → '$1 '` (the
negative lookahead backtracks into the `#` run when a space follows it). -/
def matchHashNoSpace (atLS : Bool) (l : List Char) : Option (List Char × Nat) :=
  if !atLS then none
  else
    let k := runLen (fun c => c = '#') l
    if k = 0 then none
    else
      match (l.drop k).head? with
      | some c =>
        if !(c = ' ') then some (l.take k ++ [' '], k)
        else if 2 ≤ k then some (l.take (k - 1) ++ [' '], k - 1)
        else none
      | none => some (l.take k ++ [' '], k)

/-- Pre-conversion cleanup pass 5 matcher: `/^(\s*>)(?! )/gm → '$1 '`. -/
def matchQuoteNoSpace (atLS : Bool) (l : List Char) : Option (List Char × Nat) :=
  if !atLS then none
  else
    let a := wsRunLen l
    if (l.drop a).head? = some '>' then
      if (l.drop (a + 1)).head? = some ' ' then none
      else some (l.take a ++ ['>', ' '], a + 1)
    else none

/-- The display-side pre-conversion cleanup (`preprocessResponse`):
five rewrite passes, then a trim. -/
def preprocessResponseL (text : List Char) : List Char :=
  trimL
    (gRepl matchQuoteNoSpace
      (gRepl matchHashNoSpace
        (gRepl matchStarBullet
          (gRepl matchInlineRule
            (gRepl matchNbsp text)))))

/-- String-level wrapper for the pre-conversion cleanup. -/
def preprocessResponse (s : String) : String :=
  ⟨preprocessResponseL s.data⟩

/-- The Safe Renderer (`safeRenderMarkdown`), parameterized by the
markdown-to-markup converter, which is a third-party library (`marked`) and
not part of this repository's source: cleanup, conversion, sanitization. -/
def safeRenderMarkdown (md2html : String → String) (content : String) : String :=
  ⟨sanitizeHtmlL (md2html (preprocessResponse content)).data⟩

/-- Modelled from the spec: the markdown-to-markup converter is the
third-party `marked` library ("a standard line-break-preserving,
GitHub-flavored rule set"), whose source is not in this repository; a
GitHub-flavored converter passes embedded raw HTML through unchanged, here
inside one paragraph element, which is how it treats the one-line inline-HTML
inputs used in these theorems. -/
def markedModel (s : String) : String :=
  "<p>" ++ s ++ "</p>\n"

/-- The structured `Table` of the data model (title, headers, rows). -/
structure Table where
  title : String
  headers : List String
  rows : List (List String)
deriving Repr, DecidableEq

/-- JavaScript `String.replace` dollar-substitution in a replacement string
(string pattern, so there are no capture groups: `$$`, matched text, the
text before and after the match; anything else stays literal). -/
def dollarSubst (matched before after : List Char) : List Char → List Char
  | [] => []
  | c :: rest =>
    if c = '$' then
      match rest with
      | [] => [c]
      | c2 :: rest2 =>
        if c2 = '$' then '$' :: dollarSubst matched before after rest2
        else if c2 = '&' then matched ++ dollarSubst matched before after rest2
        else if c2 = Char.ofNat 96 then before ++ dollarSubst matched before after rest2
        else if c2 = Char.ofNat 39 then after ++ dollarSubst matched before after rest2
        else '$' :: dollarSubst matched before after (c2 :: rest2)
    else c :: dollarSubst matched before after rest

/-- Replacement strings in which no dollar-escape sequence occurs, so that
dollar-substitution leaves them unchanged. -/
def dollarLiteral : List Char → Bool
  | [] => true
  | c :: rest =>
    if c = '$' then
      match rest with
      | [] => true
      | c2 :: rest2 =>
        !(c2 = '$' || c2 = '&' || c2 = Char.ofNat 96 || c2 = Char.ofNat 39) &&
          dollarLiteral (c2 :: rest2)
    else dollarLiteral rest

/-- `String.replace(pat, repl)` with a STRING pattern: replace only the
first occurrence, applying dollar-substitution to the replacement. -/
def replaceFirstAux (pat repl : List Char) : List Char → List Char → List Char
  | seen, [] => seen.reverse
  | seen, c :: cs =>
    if isPrefixL pat (c :: cs) then
      seen.reverse ++ dollarSubst pat seen.reverse ((c :: cs).drop pat.length) repl ++
        (c :: cs).drop pat.length
    else replaceFirstAux pat repl (c :: seen) cs

/-- String-level first-occurrence replace (JavaScript semantics). -/
def jsReplaceFirst (s pat repl : String) : String :=
  ⟨replaceFirstAux pat.data repl.data [] s.data⟩

/-- The generated table block (`tableHtml` in `renderTables`), built exactly
as the source concatenates it. -/
def tableHtml (table : Table) : String :=
  "<div class=\"overflow-x-auto my-4\">" ++
    "<table class=\"min-w-full border border-gray-300 rounded-lg overflow-hidden shadow-sm\">" ++
    "<caption class=\"p-2 text-sm text-gray-500 font-medium text-left\">" ++
      table.title ++ "</caption>" ++
    (if 0 < table.headers.length then
      "<thead class=\"bg-gray-100\"><tr>" ++
        String.join (table.headers.map (fun h =>
          "<th class=\"p-3 text-left text-xs font-semibold text-gray-600 uppercase tracking-wider\">" ++
            h ++ "</th>")) ++
        "</tr></thead>"
    else "") ++
    "<tbody class=\"divide-y divide-gray-200\">" ++
    String.join (table.rows.map (fun row =>
      "<tr class=\"bg-white\">" ++
        String.join (row.map (fun cell =>
          "<td class=\"p-3 text-sm text-gray-800\">" ++ cell ++ "</td>")) ++
        "</tr>")) ++
    "</tbody></table></div>"

/-- The table Placeholder Expander (`renderTables`): for each table whose
`[TABLE:<title>]` token occurs in the text, replace the token's FIRST
occurrence with the generated block; tables whose token is absent change
nothing. -/
def renderTables (answer : String) (tables : List Table) : String :=
  if tables.isEmpty then answer
  else
    tables.foldl
      (fun processedAnswer table =>
        let placeholder := "[TABLE:" ++ table.title ++ "]"
        if strContains processedAnswer placeholder then
          jsReplaceFirst processedAnswer placeholder (tableHtml table)
        else processedAnswer)
      answer

/-- The fixed icon registry (`getIconSVG`): four named inline SVG fragments;
unknown names map to the empty fragment. -/
def getIconSVG (iconName : String) : String :=
  if iconName = "location" then
    "<svg xmlns=\"http://www.w3.org/2000/svg\" class=\"inline-block w-5 h-5\" viewBox=\"0 0 24 24\"><path fill=\"currentColor\" d=\"M12 2C8.13 2 5 5.13 5 9c0 5.25 7 13 7 13s7-7.75 7-13c0-3.87-3.13-7-7-7zm0 9.5c-1.38 0-2.5-1.12-2.5-2.5S10.62 6.5 12 6.5s2.5 1.12 2.5 2.5S13.38 11.5 12 11.5z\"/></svg>"
  else if iconName = "phone" then
    "<svg xmlns=\"http://www.w3.org/2000/svg\" class=\"inline-block w-5 h-5\" fill=\"none\" viewBox=\"0 0 24 24\" stroke=\"currentColor\"><path stroke-linecap=\"round\" stroke-linejoin=\"round\" stroke-width=\"2\" d=\"M2 6.5c1.5-2 4-3 6.5-2l2 2a1 1 0 010 1.4L9 10a12 12 0 005 5l2.1-1.5a1 1 0 011.4 0l2 2c1 2.5 0 5-2 6.5-.6.4-1.4.5-2.1.2C10.2 20.5 3.5 13.8 1.8 6.6c-.3-.7-.2-1.5.2-2.1z\"/></svg>"
  else if iconName = "mobile" then
    "<svg xmlns=\"http://www.w3.org/2000/svg\" class=\"inline-block w-5 h-5\" viewBox=\"0 0 24 24\"><path fill=\"currentColor\" d=\"M15.5 1h-7a.5.5 0 00-.5.5v21a.5.5 0 00.5.5h7a.5.5 0 00.5-.5V1.5a.5.5 0 00-.5-.5zM12 22a1 1 0 110-2 1 1 0 010 2z\"/></svg>"
  else if iconName = "email" then
    "<svg xmlns=\"http://www.w3.org/2000/svg\" class=\"inline-block w-5 h-5\" fill=\"none\" viewBox=\"0 0 24 24\" stroke=\"currentColor\"><path stroke-linecap=\"round\" stroke-linejoin=\"round\" stroke-width=\"2\" d=\"M3 5h18a2 2 0 012 2v10a2 2 0 01-2 2H3a2 2 0 01-2-2V7a2 2 0 012-2z\" /><path stroke-linecap=\"round\" stroke-linejoin=\"round\" stroke-width=\"2\" d=\"M3 7l9 6 9-6\" /></svg>"
  else ""

/-- The lazy group of `\[ICON:(.*?)]`: the name up to the first `]`
(`.` does not cross a newline); returns it with the consumed length
including the closing bracket. -/
def iconNameScan : List Char → Option (List Char × Nat)
  | [] => none
  | c :: rest =>
    if c = ']' then some ([], 1)
    else if c = '\n' then none
    else (iconNameScan rest).map (fun p => (c :: p.1, p.2 + 1))

/-- The icon-token matcher of `renderIcons`: the replacement wraps the
registry fragment for the whitespace-trimmed name in an inline span. -/
def matchIconToken (_ : Bool) (l : List Char) : Option (List Char × Nat) :=
  if isPrefixL "[ICON:".data l then
    (iconNameScan (l.drop 6)).map (fun p =>
      (("<span class=\"inline-block align-middle\">" ++
          getIconSVG ⟨trimL p.1⟩ ++ "</span>").data,
        6 + p.2))
  else none

/-- The icon Placeholder Expander (`renderIcons`). -/
def renderIcons (text : String) : String :=
  ⟨gRepl matchIconToken text.data⟩

/-- A single-quote character (used to build test strings). -/
def squote : String :=
  ⟨[Char.ofNat 39]⟩

/-- Markdown carrying an event-handler attribute with a single-quoted value. -/
def singleQuotedHandlerInput : String :=
  "click <img src=x onerror=" ++ squote ++ "alert(1)" ++ squote ++ "> here"

theorem jsSize_pos (j : Js) : 1 ≤ jsSize j := by
  cases j <;> simp [jsSize]

theorem lookupField_size_lt (l : List (String × Js)) (k : String)
    (h : truthyObject (lookupField l k) = true) :
    jsSize (lookupField l k) < 1 + jsSizeO l := by
  induction l with
  | nil => simp [lookupField, truthyObject] at h
  | cons p rest ih =>
    obtain ⟨k', v⟩ := p
    by_cases hk : k' = k
    · simp only [lookupField, if_pos hk]
      simp [jsSizeO]
      omega
    · simp only [lookupField, if_neg hk] at h ⊢
      have := ih h
      simp [jsSizeO]
      omega

theorem getField_size_lt (j : Js) (k : String)
    (h : truthyObject (getField j k) = true) :
    jsSize (getField j k) < jsSize j := by
  cases j with
  | obj l =>
    have := lookupField_size_lt l k (by simpa [getField] using h)
    simpa [getField, jsSize] using this
  | _ => simp_all [getField, truthyObject]

theorem jsSize_arr_head_lt (x : Js) (xs : List Js) :
    jsSize x < jsSize (Js.arr (x :: xs)) := by
  simp [jsSize, jsSizeL]
  omega

/-- Any fuel strictly above the payload's size gives the same reconciliation
result as the canonical fuel: the source recursion is depth-bounded by the
payload itself, so the fuel never runs out. -/
theorem parseF_adequate : ∀ (n : Nat) (j : Js), jsSize j < n →
    parseF n j = parseF (jsSize j + 1) j := by
  intro n
  induction n using Nat.strong_induction_on with
  | _ n ih =>
    intro j hj
    cases n with
    | zero => omega
    | succ m =>
      cases j with
      | null => rfl
      | undefined => rfl
      | bool b => rfl
      | num i => rfl
      | str s => rfl
      | arr xs =>
        cases xs with
        | nil => rfl
        | cons x rest =>
          have h1 : parseF (m + 1) (Js.arr (x :: rest)) = parseF m x := rfl
          have h2 : parseF (jsSize (Js.arr (x :: rest)) + 1) (Js.arr (x :: rest)) =
              parseF (jsSize (Js.arr (x :: rest))) x := rfl
          have hxm : jsSize x < m := by
            have := jsSize_arr_head_lt x rest
            omega
          have hxa : jsSize x < jsSize (Js.arr (x :: rest)) := jsSize_arr_head_lt x rest
          rw [h1, h2, ih m (by omega) x hxm,
            ih (jsSize (Js.arr (x :: rest))) (by omega) x hxa]
      | obj l =>
        by_cases hresp : truthyObject (getField (Js.obj l) "response")
        · have h1 : parseF (m + 1) (Js.obj l) =
              .ok (validateBotResponse (mkRawFromResponse (getField (Js.obj l) "response"))) := by
            simp [parseF, hresp]
          have h2 : parseF (jsSize (Js.obj l) + 1) (Js.obj l) =
              .ok (validateBotResponse (mkRawFromResponse (getField (Js.obj l) "response"))) := by
            simp [parseF, hresp]
          rw [h1, h2]
        · by_cases hans : (truthy (getField (Js.obj l) "answer") ||
              truthy (getField (Js.obj l) "text") ||
              truthy (getField (Js.obj l) "message")) = true
          · have h1 : parseF (m + 1) (Js.obj l) =
                .ok (validateBotResponse (mkRawDirect (Js.obj l))) := by
              simp [parseF, hresp, hans]
            have h2 : parseF (jsSize (Js.obj l) + 1) (Js.obj l) =
                .ok (validateBotResponse (mkRawDirect (Js.obj l))) := by
              simp [parseF, hresp, hans]
            rw [h1, h2]
          · by_cases hdata : truthyObject (getField (Js.obj l) "data")
            · have h1 : parseF (m + 1) (Js.obj l) =
                  parseF m (getField (Js.obj l) "data") := by
                simp [parseF, hresp, hans, hdata]
              have h2 : parseF (jsSize (Js.obj l) + 1) (Js.obj l) =
                  parseF (jsSize (Js.obj l)) (getField (Js.obj l) "data") := by
                simp [parseF, hresp, hans, hdata]
              have hd : jsSize (getField (Js.obj l) "data") < jsSize (Js.obj l) :=
                getField_size_lt _ _ hdata
              rw [h1, h2, ih m (by omega) _ (by omega),
                ih (jsSize (Js.obj l)) (by omega) _ hd]
            · have h1 : parseF (m + 1) (Js.obj l) =
                  .ok (validateBotResponse { answer := .str (stringify (Js.obj l)) }) := by
                simp [parseF, hresp, hans, hdata]
              have h2 : parseF (jsSize (Js.obj l) + 1) (Js.obj l) =
                  .ok (validateBotResponse { answer := .str (stringify (Js.obj l)) }) := by
                simp [parseF, hresp, hans, hdata]
              rw [h1, h2]

/-- Fuel above the size can be replaced by the canonical call. -/
theorem parseF_eq_parse (n : Nat) (j : Js) (h : jsSize j < n) :
    parseF n j = parseJsonResponse j :=
  parseF_adequate n j h

theorem stringify_obj_ne_empty (o : List (String × Js)) :
    stringify (.obj o) ≠ "" := by
  have h1 : stringify (.obj o) = stringifyF (jsSize (.obj o) + 1) 0 (.obj o) := rfl
  rw [h1]
  cases hf : o.filter (fun p => !isUndefined p.2) with
  | nil => simp [stringifyF, hf]
  | cons p rest =>
    simp only [stringifyF, hf]
    intro hcontr
    have hlen := congrArg String.length hcontr
    simp [String.length_append] at hlen
    exact absurd hlen.2 (by decide)

/-- C1 (counterexample): the claim asserts the reconcile-then-validate
composition never throws for any decoded JSON value, explicitly including
`null`; but on the payload `null` the source's first property access
(`jsonData.response`) throws a TypeError, modelled here as `Except.error` —
and the array shape recurses into its first element unguarded, so `[null]`
throws as well. -/
theorem claim1_counterexample :
    parseJsonResponse Js.null = .error () ∧
    parseJsonResponse (Js.arr [Js.null]) = .error () :=
  ⟨rfl, rfl⟩

/-- C1 (amended): for every decoded JSON value whose reconciliation path
never reaches `null` or `undefined` (in particular any non-null payload whose
array-first-element recursion never hits null), the Shape Reconciler followed
by the Response Validator returns a `BotResponse` — whose `answer` field is a
string by construction of the validator — and never throws. -/
theorem claim1_totality_amended (j : Js) (h : ReconcilerSafe j) :
    ∃ r : BotResponse, parseJsonResponse j = .ok r := by
  induction h with
  | bool b => exact ⟨_, rfl⟩
  | num n => exact ⟨_, rfl⟩
  | str s => exact ⟨_, rfl⟩
  | arrNil => exact ⟨_, rfl⟩
  | arrCons x xs hx ih =>
    obtain ⟨r, hr⟩ := ih
    refine ⟨r, ?_⟩
    have h1 : parseJsonResponse (Js.arr (x :: xs)) =
        parseF (jsSize (Js.arr (x :: xs))) x := rfl
    have h2 : jsSize x < jsSize (Js.arr (x :: xs)) := jsSize_arr_head_lt x xs
    rw [h1, parseF_eq_parse _ _ h2, hr]
  | objDirect l hl =>
    by_cases hresp : truthyObject (getField (Js.obj l) "response")
    · exact ⟨validateBotResponse (mkRawFromResponse (getField (Js.obj l) "response")),
        by simp [parseJsonResponse, parseF, hresp]⟩
    · simp only [hresp, Bool.false_or] at hl
      exact ⟨validateBotResponse (mkRawDirect (Js.obj l)),
        by simp [parseJsonResponse, parseF, hresp, hl]⟩
  | objData l hd hsafe ih =>
    by_cases hresp : truthyObject (getField (Js.obj l) "response")
    · exact ⟨validateBotResponse (mkRawFromResponse (getField (Js.obj l) "response")),
        by simp [parseJsonResponse, parseF, hresp]⟩
    · by_cases hans : (truthy (getField (Js.obj l) "answer") ||
          truthy (getField (Js.obj l) "text") ||
          truthy (getField (Js.obj l) "message")) = true
      · exact ⟨validateBotResponse (mkRawDirect (Js.obj l)),
          by simp [parseJsonResponse, parseF, hresp, hans]⟩
      · obtain ⟨r, hr⟩ := ih
        refine ⟨r, ?_⟩
        have h1 : parseJsonResponse (Js.obj l) =
            parseF (jsSize (Js.obj l)) (getField (Js.obj l) "data") := by
          simp [parseJsonResponse, parseF, hresp, hans, hd]
        have h2 : jsSize (getField (Js.obj l) "data") < jsSize (Js.obj l) :=
          getField_size_lt _ _ hd
        rw [h1, parseF_eq_parse _ _ h2, hr]
  | objPlain l hd =>
    by_cases hresp : truthyObject (getField (Js.obj l) "response")
    · exact ⟨validateBotResponse (mkRawFromResponse (getField (Js.obj l) "response")),
        by simp [parseJsonResponse, parseF, hresp]⟩
    · by_cases hans : (truthy (getField (Js.obj l) "answer") ||
          truthy (getField (Js.obj l) "text") ||
          truthy (getField (Js.obj l) "message")) = true
      · exact ⟨validateBotResponse (mkRawDirect (Js.obj l)),
          by simp [parseJsonResponse, parseF, hresp, hans]⟩
      · exact ⟨validateBotResponse { answer := .str (stringify (Js.obj l)) },
          by simp [parseJsonResponse, parseF, hresp, hans, hd]⟩

/-- C1 (witness): the amended totality theorem applied to the concrete
direct-answer payload. -/
theorem claim1_witness :
    ∃ r : BotResponse, parseJsonResponse (Js.obj [("answer", Js.str "hi")]) = .ok r :=
  claim1_totality_amended _ (ReconcilerSafe.objDirect _ (by decide))

theorem nestData_isObj (k : Nat) (l : List (String × Js)) :
    ∃ l', nestData k (.obj l) = .obj l' := by
  cases k with
  | zero => exact ⟨l, rfl⟩
  | succ k => exact ⟨[("data", nestData k (.obj l))], rfl⟩

/-- C6 (counterexample): the claim asserts reconciliation recursion into
nested "data" wrappers is capped at a fixed depth (e.g. 10), falling back to
stringification beyond it.  On a payload with twelve nested "data" wrappers
the source reconciler still extracts the innermost answer "hi", whereas the
claim's capped reconciler (`specCappedReconcile`, modelled from the spec's
words) stops at the cap and answers with a JSON serialization instead. -/
theorem claim6_counterexample :
    parseJsonResponse deepDataPayload =
      .ok { answer := "hi", related_content := none, recommendations := none,
            file_links := none, tables := none } ∧
    ∃ s : BotResponse, specCappedReconcile deepDataPayload = .ok s ∧ s.answer ≠ "hi" := by
  refine ⟨rfl, ⟨_, rfl, ?_⟩⟩
  decide

/-- C6 (amended): shape reconciliation terminates on every decoded payload
because each recursion step descends into a structurally smaller part of the
payload; the code imposes NO fixed recursion cap — a "data" wrapper nest of
ANY depth is unwrapped completely and reconciled exactly like its innermost
object, never routed to the stringification fallback on account of depth. -/
theorem claim6_termination_amended (k : Nat) (l : List (String × Js)) :
    parseJsonResponse (nestData k (.obj l)) = parseJsonResponse (.obj l) := by
  induction k with
  | zero => rfl
  | succ k ih =>
    obtain ⟨l', hl'⟩ := nestData_isObj k l
    have hget : getField (.obj [("data", nestData k (.obj l))]) "data" =
        nestData k (.obj l) := by
      simp [getField, lookupField]
    have hresp : truthyObject (getField (.obj [("data", nestData k (.obj l))]) "response") = false := by
      simp [getField, lookupField, truthyObject]
    have hans : (truthy (getField (.obj [("data", nestData k (.obj l))]) "answer") ||
        truthy (getField (.obj [("data", nestData k (.obj l))]) "text") ||
        truthy (getField (.obj [("data", nestData k (.obj l))]) "message")) = false := by
      simp [getField, lookupField, truthy]
    have hdata : truthyObject (getField (.obj [("data", nestData k (.obj l))]) "data") = true := by
      rw [hget, hl']
      rfl
    have h1 : parseJsonResponse (nestData (k + 1) (.obj l)) =
        parseF (jsSize (.obj [("data", nestData k (.obj l))]))
          (getField (.obj [("data", nestData k (.obj l))]) "data") := by
      show parseJsonResponse (.obj [("data", nestData k (.obj l))]) = _
      simp [parseJsonResponse, parseF, hresp, hans, hdata]
    have hsz : jsSize (getField (.obj [("data", nestData k (.obj l))]) "data") <
        jsSize (.obj [("data", nestData k (.obj l))]) := by
      rw [hget]
      simp [jsSize, jsSizeO]
      omega
    rw [h1, parseF_eq_parse _ _ hsz, hget, ih]

/-- C10: an object payload with no "response" and no "data" wrapper whose
answer-like fields (answer / text / message) are each absent or the empty
string — with at least one present as the empty string — is NOT recognized as
the direct-answer shape (the guard tests truthiness, not presence), so it
falls through to the fallback and the resulting answer is the JSON
serialization of the whole payload, which is never the empty string. -/
theorem claim10_empty_answer_stringified
    (o : List (String × Js))
    (hresp : lookupField o "response" = .undefined)
    (hdata : lookupField o "data" = .undefined)
    (hans : lookupField o "answer" = .undefined ∨ lookupField o "answer" = .str "")
    (htext : lookupField o "text" = .undefined ∨ lookupField o "text" = .str "")
    (hmsg : lookupField o "message" = .undefined ∨ lookupField o "message" = .str "")
    (_hpresent : lookupField o "answer" = .str "" ∨ lookupField o "text" = .str "" ∨
      lookupField o "message" = .str "") :
    parseJsonResponse (.obj o) =
      .ok { answer := stringify (.obj o), related_content := none,
            recommendations := none, file_links := none, tables := none } ∧
    stringify (.obj o) ≠ "" := by
  refine ⟨?_, stringify_obj_ne_empty o⟩
  have h1 : truthy (lookupField o "answer") = false := by
    rcases hans with h | h <;> simp [h, truthy]
  have h2 : truthy (lookupField o "text") = false := by
    rcases htext with h | h <;> simp [h, truthy]
  have h3 : truthy (lookupField o "message") = false := by
    rcases hmsg with h | h <;> simp [h, truthy]
  simp [parseJsonResponse, parseF, getField, hresp, hdata, h1, h2, h3,
    truthyObject, validateBotResponse]

/-- C10 (witness): the theorem applied to the concrete payload
`{ "answer": "" }`, whose reconciled answer is its own serialization. -/
theorem claim10_witness :
    parseJsonResponse (.obj [("answer", Js.str "")]) =
      .ok { answer := stringify (.obj [("answer", Js.str "")]),
            related_content := none, recommendations := none,
            file_links := none, tables := none } ∧
    stringify (.obj [("answer", Js.str "")]) ≠ "" :=
  claim10_empty_answer_stringified [("answer", Js.str "")]
    rfl rfl (Or.inr rfl) (Or.inl rfl) (Or.inl rfl) (Or.inl rfl)

/-- C5 (counterexample): the claim says every related-content element of the
returned Response has a NON-EMPTY title and url, and every table has headers
that are strings and rows that are string-sequences.  The source validator
only type-checks title/url as strings and headers/rows as arrays: an entry
with empty title and url, and a table with a numeric header element, are both
kept, violating the claimed invariant. -/
theorem claim5_counterexample :
    (validateBotResponse lenientCandidate).related_content =
      some [emptyTitleLink] ∧
    (validateBotResponse lenientCandidate).tables =
      some [numericHeaderTable] ∧
    specLinkValid emptyTitleLink = false ∧
    specTableValid numericHeaderTable = false :=
  ⟨rfl, rfl, rfl, rfl⟩

/-- C5 (amended): for each optional-field array the validator returns exactly
the subset passing the CODE's per-entry checks — for relatedContent and
fileLinks: a truthy entry whose `title` and `url` are of string type (possibly
empty); for tables: a truthy entry with a string `title` and array-typed
`headers` and `rows` (element types unchecked) — preserving the original
relative order (a sublist), dropping invalid entries individually; the
concrete mixed list keeps its two valid entries, in order, and drops the
invalid one. -/
theorem claim5_filtering_amended :
    (∀ xs : List Js, ∃ ys,
      (validateBotResponse { related_content := .arr xs }).related_content = some ys ∧
      ys.Sublist xs ∧ (∀ x ∈ ys, validLinkEntry x = true) ∧
      (∀ x ∈ xs, validLinkEntry x = true → x ∈ ys)) ∧
    (∀ xs : List Js, ∃ ys,
      (validateBotResponse { file_links := .arr xs }).file_links = some ys ∧
      ys.Sublist xs ∧ (∀ x ∈ ys, validLinkEntry x = true) ∧
      (∀ x ∈ xs, validLinkEntry x = true → x ∈ ys)) ∧
    (∀ xs : List Js, ∃ ys,
      (validateBotResponse { tables := .arr xs }).tables = some ys ∧
      ys.Sublist xs ∧ (∀ x ∈ ys, validTableEntry x = true) ∧
      (∀ x ∈ xs, validTableEntry x = true → x ∈ ys)) ∧
    (validateBotResponse
        { related_content := .arr [goodLinkA, Js.null, goodLinkB] }).related_content =
      some [goodLinkA, goodLinkB] := by
  refine ⟨?_, ?_, ?_, rfl⟩ <;>
    intro xs <;>
    refine ⟨_, rfl, List.filter_sublist xs, ?_, ?_⟩ <;>
    intro x hx
  · exact (List.mem_filter.mp hx).2
  · exact fun hp => List.mem_filter.mpr ⟨hx, hp⟩
  · exact (List.mem_filter.mp hx).2
  · exact fun hp => List.mem_filter.mpr ⟨hx, hp⟩
  · exact (List.mem_filter.mp hx).2
  · exact fun hp => List.mem_filter.mpr ⟨hx, hp⟩

/-- C5 (witness): the amended theorem instantiated at a concrete mixed
related-content list. -/
theorem claim5_witness :
    ∃ ys, (validateBotResponse
        { related_content := .arr [goodLinkA, Js.null] }).related_content = some ys ∧
      ys.Sublist [goodLinkA, Js.null] ∧ (∀ x ∈ ys, validLinkEntry x = true) ∧
      (∀ x ∈ [goodLinkA, Js.null], validLinkEntry x = true → x ∈ ys) :=
  claim5_filtering_amended.1 [goodLinkA, Js.null]

/-- C3 (counterexample): the Text Repair Engine is NOT idempotent — on the
already-repaired text produced from two adjacent list items, a second run
inserts a further blank line, because rule 7's `\s*` matches across the
blank line it inserted in the first run. -/
theorem claim3_counterexample :
    preprocessTextResponse (preprocessTextResponse "- x\n- y") ≠
      preprocessTextResponse "- x\n- y" := by
  decide

/-- C3 (amended): `repairText` is not idempotent.  Repairing `"- x\n- y"`
yields `"- x\n\n- y"`; repairing that yields `"- x\n\n\n- y"` (the list
separation rule fires across the blank line); the iteration only stabilizes
at the third application, `"- x\n\n\n- y"` being a fixed point. -/
theorem claim3_not_idempotent_amended :
    preprocessTextResponse "- x\n- y" = "- x\n\n- y" ∧
    preprocessTextResponse "- x\n\n- y" = "- x\n\n\n- y" ∧
    preprocessTextResponse "- x\n\n\n- y" = "- x\n\n\n- y" :=
  ⟨rfl, rfl, rfl⟩

/-- C7 (counterexample): the claim says two consecutive list-item lines are
left adjacent; but the source's rule-7 regex only requires the preceding
CHARACTER to be a non-newline, so it inserts a blank line between the two
adjacent bullet items of `"- x\n- y"`. -/
theorem claim7_counterexample :
    preprocessTextResponse "- x\n- y" = "- x\n\n- y" ∧
    ("- x\n\n- y" : String) ≠ "- x\n- y" :=
  ⟨rfl, by decide⟩

/-- C7 (amended): a blank line is inserted before a bulleted or numbered
list-item line whenever the character immediately preceding that line is any
non-newline character — including when the preceding line is itself a list
item, so consecutive list items are separated by an inserted blank line
rather than left adjacent; prose before a list is separated likewise. -/
theorem claim7_blank_line_amended :
    preprocessTextResponse "a\n- x" = "a\n\n- x" ∧
    preprocessTextResponse "a\n1. x" = "a\n\n1. x" ∧
    preprocessTextResponse "- x\n- y" = "- x\n\n- y" ∧
    preprocessTextResponse "a\n\nb\n- x" = "a\n\nb\n\n- x" :=
  ⟨rfl, rfl, rfl, rfl⟩

theorem dedupHeadingLines_sublist (lns : List (List Char)) :
    ∀ last : List Char, (dedupHeadingLines lns last).Sublist lns := by
  induction lns with
  | nil => intro last; simp [dedupHeadingLines]
  | cons ln rest ih =>
    intro last
    cases h : headingContent ln with
    | some content =>
      by_cases heq : lowerL (trimL content) = lowerL last
      · have hc : dedupHeadingLines (ln :: rest) last = dedupHeadingLines rest last := by
          simp [dedupHeadingLines, h, heq]
        rw [hc]
        exact (ih last).cons ln
      · have hc : dedupHeadingLines (ln :: rest) last =
            ln :: dedupHeadingLines rest (trimL content) := by
          simp [dedupHeadingLines, h, heq]
        rw [hc]
        exact (ih (trimL content)).cons₂ ln
    | none =>
      have hc : dedupHeadingLines (ln :: rest) last = ln :: dedupHeadingLines rest [] := by
        simp [dedupHeadingLines, h]
      rw [hc]
      exact (ih []).cons₂ ln

/-- C8: immediately-adjacent duplicate heading lines are collapsed,
case-insensitively, and the tracked heading text resets at a non-heading
line: `"# Title\n# Title\nBody"` repairs to exactly one `"# Title"` followed
by `"Body"`; the duplicate is dropped even when its case differs; a repeated
heading separated by a non-heading line is NOT dropped; and the collapse pass
only ever DROPS lines — its output is a sublist of its input. -/
theorem claim8_duplicate_heading_collapse :
    preprocessTextResponse "# Title\n# Title\nBody" = "# Title\nBody" ∧
    preprocessTextResponse "# Title\n# TITLE\nBody" = "# Title\nBody" ∧
    preprocessTextResponse "# A\nBody\n# A" = "# A\nBody\n# A" ∧
    (∀ (lns : List (List Char)) (last : List Char),
      (dedupHeadingLines lns last).Sublist lns) :=
  ⟨rfl, rfl, rfl, dedupHeadingLines_sublist⟩

theorem gReplF_nil (m : Bool → List Char → Option (List Char × Nat))
    (k : Nat) (b : Bool) : gReplF m k b [] = [] := by
  cases k <;> rfl

theorem gRepl_single_match (m : Bool → List Char → Option (List Char × Nat))
    (c : Char) (cs repl : List Char) (used : Nat)
    (hm : m true (c :: cs) = some (repl, used))
    (hlen : (c :: cs).length ≤ used) :
    gRepl m (c :: cs) = repl := by
  show gReplF m (cs.length + 1) true (c :: cs) = repl
  rw [show gReplF m (cs.length + 1) true (c :: cs) =
      (match m true (c :: cs) with
       | some (repl, used) =>
         repl ++ gReplF m cs.length (lastIsNewline ((c :: cs).take used)) ((c :: cs).drop used)
       | none => c :: gReplF m cs.length (c = '\n') cs) from rfl]
  rw [hm]
  show repl ++ gReplF m cs.length (lastIsNewline (List.take used (c :: cs)))
      (List.drop used (c :: cs)) = repl
  have hdrop : (c :: cs).drop used = [] := List.drop_eq_nil_of_le hlen
  rw [hdrop, gReplF_nil]
  simp

theorem iconNameScan_spec (name : List Char) (h1 : ']' ∉ name) (h2 : '\n' ∉ name) :
    iconNameScan (name ++ [']']) = some (name, name.length + 1) := by
  induction name with
  | nil => rfl
  | cons c cs ih =>
    have hc1 : ¬(c = ']') := fun h => h1 (by simp [h])
    have hc2 : ¬(c = '\n') := fun h => h2 (by simp [h])
    have ih' := ih (fun h => h1 (List.mem_cons_of_mem _ h))
      (fun h => h2 (List.mem_cons_of_mem _ h))
    simp [iconNameScan, hc1, hc2, ih']

theorem renderTables_not_found (answer : String) (tables : List Table)
    (h : ∀ t ∈ tables, strContains answer ("[TABLE:" ++ t.title ++ "]") = false) :
    renderTables answer tables = answer := by
  induction tables with
  | nil => rfl
  | cons t ts ih =>
    have ht : strContains answer ("[TABLE:" ++ t.title ++ "]") = false :=
      h t (List.mem_cons_self t ts)
    have hts := ih (fun t' ht' => h t' (List.mem_cons_of_mem _ ht'))
    have hstep : renderTables answer (t :: ts) =
        ts.foldl
          (fun processedAnswer table =>
            let placeholder := "[TABLE:" ++ table.title ++ "]"
            if strContains processedAnswer placeholder then
              jsReplaceFirst processedAnswer placeholder (tableHtml table)
            else processedAnswer)
          answer := by
      simp [renderTables, ht]
    rw [hstep]
    cases hts' : ts with
    | nil => rfl
    | cons t' ts' =>
      have : renderTables answer ts = ts.foldl
          (fun processedAnswer table =>
            let placeholder := "[TABLE:" ++ table.title ++ "]"
            if strContains processedAnswer placeholder then
              jsReplaceFirst processedAnswer placeholder (tableHtml table)
            else processedAnswer)
          answer := by
        rw [hts']
        rfl
      rw [← hts', ← this, hts]

theorem dollarLiteral_cons_ne (c : Char) (rest : List Char) (hc : ¬ c = '$') :
    dollarLiteral (c :: rest) = dollarLiteral rest := by
  unfold dollarLiteral
  rw [if_neg hc]
  exact dollarLiteral.eq_def rest

theorem dollarSubst_cons_ne (m b a : List Char) (c : Char) (rest : List Char)
    (hc : ¬ c = '$') :
    dollarSubst m b a (c :: rest) = c :: dollarSubst m b a rest := by
  unfold dollarSubst
  rw [if_neg hc]
  exact congrArg (List.cons c) (dollarSubst.eq_def m b a rest)

theorem dollarSubst_literal (matched before after : List Char) :
    ∀ l : List Char, dollarLiteral l = true →
    dollarSubst matched before after l = l := by
  intro l
  induction l with
  | nil => intro _; rfl
  | cons c rest ih =>
    intro h
    by_cases hc : c = '$'
    · subst hc
      cases rest with
      | nil => rfl
      | cons c2 rest2 =>
        have hh : (!(decide (c2 = '$') || decide (c2 = '&') ||
            decide (c2 = Char.ofNat 96) || decide (c2 = Char.ofNat 39)) &&
            dollarLiteral (c2 :: rest2)) = true := h
        rw [Bool.and_eq_true] at hh
        obtain ⟨hspec, hrest⟩ := hh
        rw [Bool.not_eq_true'] at hspec
        simp only [Bool.or_eq_false_iff, decide_eq_false_iff_not] at hspec
        obtain ⟨⟨⟨h1, h2⟩, h3⟩, h4⟩ := hspec
        show (if c2 = '$' then '$' :: dollarSubst matched before after rest2
          else if c2 = '&' then matched ++ dollarSubst matched before after rest2
          else if c2 = Char.ofNat 96 then before ++ dollarSubst matched before after rest2
          else if c2 = Char.ofNat 39 then after ++ dollarSubst matched before after rest2
          else '$' :: dollarSubst matched before after (c2 :: rest2)) = '$' :: c2 :: rest2
        rw [if_neg h1, if_neg h2, if_neg h3, if_neg h4]
        exact congrArg (List.cons '$') (ih hrest)
    · rw [dollarLiteral_cons_ne c rest hc] at h
      rw [dollarSubst_cons_ne matched before after c rest hc, ih h]

theorem isPrefixL_append_self (pat rest : List Char) :
    isPrefixL pat (pat ++ rest) = true := by
  induction pat with
  | nil => rfl
  | cons p ps ih => simp [isPrefixL, ih]

theorem containsSub_append_of_prefix (pre rest pat : List Char)
    (h : isPrefixL pat rest = true) :
    containsSub (pre ++ rest) pat = true := by
  induction pre with
  | nil =>
    cases rest with
    | nil =>
      cases pat with
      | nil => rfl
      | cons p ps => simp [isPrefixL] at h
    | cons c cs => simp [containsSub, h]
  | cons c pre' ih => simp [containsSub, ih]

theorem replaceFirstAux_spec (pat repl post : List Char) (p : Char) (ps : List Char)
    (hpat : pat = p :: ps) :
    ∀ (pre seen : List Char),
    (∀ k, k < pre.length → isPrefixL pat ((pre ++ (pat ++ post)).drop k) = false) →
    replaceFirstAux pat repl seen (pre ++ (pat ++ post)) =
      seen.reverse ++ pre ++
        dollarSubst pat (seen.reverse ++ pre) post repl ++ post := by
  intro pre
  induction pre with
  | nil =>
    intro seen _
    subst hpat
    show replaceFirstAux (p :: ps) repl seen ((p :: ps) ++ post) = _
    have hcons : (p :: ps) ++ post = p :: (ps ++ post) := rfl
    rw [hcons]
    show (if isPrefixL (p :: ps) (p :: (ps ++ post)) then
        seen.reverse ++
          dollarSubst (p :: ps) seen.reverse ((p :: (ps ++ post)).drop (p :: ps).length) repl ++
          (p :: (ps ++ post)).drop (p :: ps).length
      else replaceFirstAux (p :: ps) repl (p :: seen) (ps ++ post)) = _
    rw [if_pos (by simpa using isPrefixL_append_self (p :: ps) post)]
    have hdrop : (p :: (ps ++ post)).drop (p :: ps).length = post := by
      exact List.drop_left (p :: ps) post
    rw [hdrop]
    simp
  | cons c pre' ih =>
    intro seen h
    have h0 : isPrefixL pat (c :: (pre' ++ (pat ++ post))) = false := by
      have := h 0 (by simp)
      simpa using this
    show (match c :: (pre' ++ (pat ++ post)) with
      | [] => seen.reverse
      | c :: cs =>
        if isPrefixL pat (c :: cs) then
          seen.reverse ++ dollarSubst pat seen.reverse ((c :: cs).drop pat.length) repl ++
            (c :: cs).drop pat.length
        else replaceFirstAux pat repl (c :: seen) cs) = _
    rw [show (match c :: (pre' ++ (pat ++ post)) with
      | [] => seen.reverse
      | c :: cs =>
        if isPrefixL pat (c :: cs) then
          seen.reverse ++ dollarSubst pat seen.reverse ((c :: cs).drop pat.length) repl ++
            (c :: cs).drop pat.length
        else replaceFirstAux pat repl (c :: seen) cs) =
      (if isPrefixL pat (c :: (pre' ++ (pat ++ post))) then
        seen.reverse ++
          dollarSubst pat seen.reverse ((c :: (pre' ++ (pat ++ post))).drop pat.length) repl ++
          (c :: (pre' ++ (pat ++ post))).drop pat.length
      else replaceFirstAux pat repl (c :: seen) (pre' ++ (pat ++ post))) from rfl]
    rw [if_neg (by simp [h0])]
    have h' : ∀ k, k < pre'.length →
        isPrefixL pat ((pre' ++ (pat ++ post)).drop k) = false := by
      intro k hk
      have := h (k + 1) (by simp; omega)
      simpa using this
    rw [ih (c :: seen) h']
    simp [List.reverse_cons, List.append_assoc]

theorem renderTables_first_occurrence (t : Table) (pre post : List Char)
    (hfirst : ∀ k, k < pre.length →
      isPrefixL ("[TABLE:" ++ t.title ++ "]").data
        ((pre ++ (("[TABLE:" ++ t.title ++ "]").data ++ post)).drop k) = false)
    (hlit : dollarLiteral (tableHtml t).data = true) :
    renderTables ⟨pre ++ (("[TABLE:" ++ t.title ++ "]").data ++ post)⟩ [t] =
      ⟨pre ++ ((tableHtml t).data ++ post)⟩ := by
  have hpat : ("[TABLE:" ++ t.title ++ "]").data =
      '[' :: ("TABLE:" ++ (t.title ++ "]")).data := rfl
  have hcontains :
      strContains ⟨pre ++ (("[TABLE:" ++ t.title ++ "]").data ++ post)⟩
        ("[TABLE:" ++ t.title ++ "]") = true := by
    show containsSub (pre ++ (("[TABLE:" ++ t.title ++ "]").data ++ post))
      ("[TABLE:" ++ t.title ++ "]").data = true
    exact containsSub_append_of_prefix pre _ _
      (isPrefixL_append_self ("[TABLE:" ++ t.title ++ "]").data post)
  have hrepl :
      jsReplaceFirst ⟨pre ++ (("[TABLE:" ++ t.title ++ "]").data ++ post)⟩
        ("[TABLE:" ++ t.title ++ "]") (tableHtml t) =
      ⟨pre ++ ((tableHtml t).data ++ post)⟩ := by
    show (⟨replaceFirstAux ("[TABLE:" ++ t.title ++ "]").data (tableHtml t).data []
        (pre ++ (("[TABLE:" ++ t.title ++ "]").data ++ post))⟩ : String) = _
    rw [replaceFirstAux_spec _ _ _ _ _ hpat pre [] hfirst]
    rw [dollarSubst_literal _ _ _ _ hlit]
    simp
  show (if strContains ⟨pre ++ (("[TABLE:" ++ t.title ++ "]").data ++ post)⟩
        ("[TABLE:" ++ t.title ++ "]") then
      jsReplaceFirst ⟨pre ++ (("[TABLE:" ++ t.title ++ "]").data ++ post)⟩
        ("[TABLE:" ++ t.title ++ "]") (tableHtml t)
    else ⟨pre ++ (("[TABLE:" ++ t.title ++ "]").data ++ post)⟩) = _
  rw [if_pos hcontains, hrepl]

/-- C2 (counterexample): the claim asserts that for EVERY input containing an
`onerror=` event-handler attribute the rendered output contains no
`onerror=` substring; but the sanitizer only strips handler attributes whose
value is quoted, so markdown carrying an UNQUOTED `onerror=` value passes
through conversion and sanitization with the attribute intact. -/
theorem claim2_counterexample :
    strContains "<img src=x onerror=alert(1)>" "onerror=" = true ∧
    strContains (safeRenderMarkdown markedModel "<img src=x onerror=alert(1)>")
      "onerror=" = true :=
  ⟨rfl, rfl⟩

/-- C2 (amended): the sanitization chain removes embedded script blocks
matched by its tempered pattern, removes every `javascript:` substring, and
removes event-handler attributes with single- or double-quoted values — so
for inputs whose dangerous construct is a standalone script block, a quoted
`onerror` attribute, or a `javascript:` scheme, the output contains none of
those substrings; the removal is limited to QUOTED handler values, and an
unquoted `onerror=` attribute value survives. -/
theorem claim2_sanitization_amended :
    strContains (safeRenderMarkdown markedModel "hello <script>alert(1)</script> world")
      "<script" = false ∧
    strContains (safeRenderMarkdown markedModel "hello <script>alert(1)</script> world")
      "</script" = false ∧
    safeRenderMarkdown markedModel "hello <script>alert(1)</script> world" =
      "<p>hello  world</p>\n" ∧
    strContains (safeRenderMarkdown markedModel "<img src=x onerror=\"alert(1)\">")
      "onerror=" = false ∧
    strContains (safeRenderMarkdown markedModel singleQuotedHandlerInput)
      "onerror=" = false ∧
    strContains (safeRenderMarkdown markedModel "<a href=\"javascript:alert(1)\">x</a>")
      "javascript:" = false ∧
    strContains (safeRenderMarkdown markedModel "<img src=a onerror=steal()>")
      "onerror=" = true :=
  ⟨rfl, rfl, rfl, rfl, rfl, rfl, rfl⟩

set_option maxRecDepth 4000 in
/-- C4: table-placeholder expansion — tables whose `[TABLE:<title>]` token is
not found in the text produce no output anywhere; a table whose token first
occurs after a token-free prefix has exactly that first occurrence replaced
by the generated block (dollar-escape-free, as every block built from
`$`-free cell text is), the rest of the text — including any later identical
tokens — left untouched; the Pricing example yields both header cells and the
single data row and the literal token disappears; and with two identical
tokens only the first is replaced, the second staying literal. -/
theorem claim4_table_placeholder :
    (∀ (answer : String) (tables : List Table),
      (∀ t ∈ tables, strContains answer ("[TABLE:" ++ t.title ++ "]") = false) →
      renderTables answer tables = answer) ∧
    (∀ (t : Table) (pre post : List Char),
      (∀ k, k < pre.length →
        isPrefixL ("[TABLE:" ++ t.title ++ "]").data
          ((pre ++ (("[TABLE:" ++ t.title ++ "]").data ++ post)).drop k) = false) →
      dollarLiteral (tableHtml t).data = true →
      renderTables ⟨pre ++ (("[TABLE:" ++ t.title ++ "]").data ++ post)⟩ [t] =
        ⟨pre ++ ((tableHtml t).data ++ post)⟩) ∧
    (strContains
        (renderTables "Here: [TABLE:Pricing]"
          [⟨"Pricing", ["Plan", "Price"], [["Basic", "$10"]]⟩]) ">Plan</th>" = true ∧
      strContains
        (renderTables "Here: [TABLE:Pricing]"
          [⟨"Pricing", ["Plan", "Price"], [["Basic", "$10"]]⟩]) ">Price</th>" = true ∧
      strContains
        (renderTables "Here: [TABLE:Pricing]"
          [⟨"Pricing", ["Plan", "Price"], [["Basic", "$10"]]⟩]) ">Basic</td>" = true ∧
      strContains
        (renderTables "Here: [TABLE:Pricing]"
          [⟨"Pricing", ["Plan", "Price"], [["Basic", "$10"]]⟩]) ">$10</td>" = true ∧
      strContains
        (renderTables "Here: [TABLE:Pricing]"
          [⟨"Pricing", ["Plan", "Price"], [["Basic", "$10"]]⟩]) "[TABLE:" = false) ∧
    renderTables "A [TABLE:T] B [TABLE:T]" [⟨"T", ["H"], []⟩] =
      "A " ++ tableHtml ⟨"T", ["H"], []⟩ ++ " B [TABLE:T]" :=
  ⟨renderTables_not_found, renderTables_first_occurrence,
    ⟨rfl, rfl, rfl, rfl, rfl⟩, rfl⟩

set_option maxRecDepth 8000 in
/-- C4 (witness): the not-found clause applied to a token-free text, and the
first-occurrence clause applied to a concrete one-table list. -/
theorem claim4_witness :
    renderTables "hello" [⟨"X", [], []⟩] = "hello" ∧
    renderTables ⟨"A ".data ++ (("[TABLE:" ++ "T" ++ "]").data ++ " B".data)⟩
        [⟨"T", ["H"], []⟩] =
      ⟨"A ".data ++ ((tableHtml ⟨"T", ["H"], []⟩).data ++ " B".data)⟩ :=
  ⟨claim4_table_placeholder.1 "hello" [⟨"X", [], []⟩] (by decide),
    claim4_table_placeholder.2.1 ⟨"T", ["H"], []⟩ "A ".data " B".data
      (by decide) (by decide)⟩

theorem gRepl_single (m : Bool → List Char → Option (List Char × Nat))
    (l repl : List Char) (used : Nat) (hne : l ≠ [])
    (hm : m true l = some (repl, used)) (hlen : l.length ≤ used) :
    gRepl m l = repl := by
  cases l with
  | nil => exact absurd rfl hne
  | cons c cs => exact gRepl_single_match m c cs repl used hm hlen

set_option maxRecDepth 8000 in
/-- C9: any token `[ICON:<name>]` (name free of `]` and newline) is replaced
by an inline span holding the registry fragment for the whitespace-trimmed
name; for the unknown name in `[ICON:unknown]` the output carries no literal
`[ICON:` substring and an empty fragment; and a known name surrounded by
whitespace resolves to its registry fragment after trimming. -/
theorem claim9_icon_substitution :
    (∀ name : List Char, ']' ∉ name → '\n' ∉ name →
      renderIcons ("[ICON:" ++ (⟨name⟩ : String) ++ "]") =
        "<span class=\"inline-block align-middle\">" ++
          getIconSVG ⟨trimL name⟩ ++ "</span>") ∧
    renderIcons "[ICON:unknown]" = "<span class=\"inline-block align-middle\"></span>" ∧
    strContains (renderIcons "[ICON:unknown]") "[ICON:" = false ∧
    renderIcons "go [ICON: location ] now" =
      "go <span class=\"inline-block align-middle\">" ++
        getIconSVG "location" ++ "</span> now" := by
  refine ⟨?_, rfl, rfl, rfl⟩
  intro name h1 h2
  have hscan := iconNameScan_spec name h1 h2
  have hdata : ("[ICON:" ++ (⟨name⟩ : String) ++ "]").data =
      ("[ICON:".data ++ name) ++ [']'] := rfl
  have hm : matchIconToken true (("[ICON:".data ++ name) ++ [']']) =
      some (("<span class=\"inline-block align-middle\">" ++
        getIconSVG ⟨trimL name⟩ ++ "</span>").data, 6 + (name.length + 1)) := by
    have h0 : matchIconToken true (("[ICON:".data ++ name) ++ [']']) =
        (iconNameScan (name ++ [']'])).map (fun p =>
          (("<span class=\"inline-block align-middle\">" ++
              getIconSVG ⟨trimL p.1⟩ ++ "</span>").data, 6 + p.2)) := rfl
    rw [h0, hscan]
    rfl
  have hlen : (("[ICON:".data ++ name) ++ [']']).length ≤ 6 + (name.length + 1) := by
    simp [List.length_append]
    omega
  have hne : (("[ICON:".data ++ name) ++ [']']) ≠ [] := by
    simp
  have hres : gRepl matchIconToken (("[ICON:".data ++ name) ++ [']']) =
      ("<span class=\"inline-block align-middle\">" ++
        getIconSVG ⟨trimL name⟩ ++ "</span>").data :=
    gRepl_single _ _ _ _ hne hm hlen
  show (⟨gRepl matchIconToken (("[ICON:" ++ (⟨name⟩ : String) ++ "]").data)⟩ : String) = _
  rw [hdata, hres]

/-- C9 (witness): the general clause applied to the concrete name `email`. -/
theorem claim9_witness :
    renderIcons ("[ICON:" ++ (⟨"email".data⟩ : String) ++ "]") =
      "<span class=\"inline-block align-middle\">" ++
        getIconSVG ⟨trimL "email".data⟩ ++ "</span>" :=
  claim9_icon_substitution.1 "email".data (by decide) (by decide)
